import Mathlib

/-!
Shallow embedding of the fruit-quality analysis backend (src/backend/main.py).

Modelling conventions:
* Pixel counts and labels are natural numbers; the per-pixel cluster
  assignment returned by the clustering stage is a `List (Fin 3)` and the
  cluster centroids are a function `Fin 3 → ℚ × ℚ × ℚ` giving the
  (L, a, b) channels.  The clustering itself (`cv2.kmeans`) is an external
  library call with randomised seeding, so the embedding quantifies over
  its possible outputs.
* Python floats are modelled by exact rational (or, where the code uses
  real exponentiation, real) arithmetic.  Python's `round(x, n)` performs
  round-half-to-even on the scaled value; `rnd` below implements exactly
  that tie-breaking rule, and `round1` / `round2` are `round(·, 1)` and
  `round(·, 2)`.
* `int(x)` on a non-negative float truncates, i.e. takes the floor; for
  the ratio computations the embedding uses exact `Nat` division
  `(100 * n) / d`.  IEEE double rounding in `100 * (n / d)` can lower the
  truncated result by one below the exact floor when the exact quotient
  is an integer (`int(100 * (29 / 100)) == 28`), so theorems about the
  individual scores only assert bands that are stable under that
  one-below deviation.
* `random.uniform (0.15, 0.30)` is modelled by a parameter `u` together
  with the hypothesis `0.15 ≤ u ∧ u ≤ 0.30` that the library guarantees.
* The comparison `apple_pixels < 0.05 * total_pixels` is modelled exactly
  as `apple_pixels * 20 < total_pixels`.
-/

section PyRound

variable {α : Type*} [LinearOrderedField α] [FloorRing α]

/-- Python's built-in integer rounding: round-half-to-even (banker's
rounding).  Agrees with Mathlib's `round` except on exact halves, where it
picks the even neighbour. -/
def rnd (x : α) : ℤ :=
  if x - ⌊x⌋ = 1 / 2 then (if Even ⌊x⌋ then ⌊x⌋ else ⌊x⌋ + 1) else round x

/-- Python's `round(x, 1)`. -/
def round1 (x : α) : α := ((rnd (10 * x) : ℤ) : α) / 10

/-- Python's `round(x, 2)`. -/
def round2 (x : α) : α := ((rnd (100 * x) : ℤ) : α) / 100

theorem rnd_eq_round {x : α} (h : x - ⌊x⌋ ≠ 1 / 2) : rnd x = round x := by
  unfold rnd
  rw [if_neg h]

theorem floor_le_rnd (x : α) : ⌊x⌋ ≤ rnd x := by
  unfold rnd
  split
  · split
    · exact le_refl _
    · exact le_of_lt (lt_add_one _)
  · rw [round_eq]
    exact Int.floor_le_floor (by linarith)

theorem rnd_le_ceil (x : α) : rnd x ≤ ⌈x⌉ := by
  unfold rnd
  split
  · rename_i htie
    have hne : (⌊x⌋ : α) < x := by
      have : x - ⌊x⌋ = 1 / 2 := htie
      linarith
    have hceil : ⌊x⌋ + 1 ≤ ⌈x⌉ := by
      have : ⌊x⌋ < ⌈x⌉ := Int.lt_ceil.mpr hne
      omega
    split
    · omega
    · exact hceil
  · rw [round_eq, Int.floor_le_iff]
    have := Int.le_ceil x
    linarith

theorem rnd_nonneg_of {x : α} (h : 0 ≤ x) : 0 ≤ rnd x :=
  le_trans (Int.le_floor.mpr (by exact_mod_cast h)) (floor_le_rnd x)

theorem rnd_intCast (n : ℤ) : rnd ((n : α)) = n := by
  have h : ((n : α)) - ⌊(n : α)⌋ ≠ 1 / 2 := by
    rw [Int.floor_intCast]
    simp only [sub_self]
    norm_num
  rw [rnd_eq_round h, round_intCast]

theorem rnd_mono_of_ne {x y : α} (hx : x - ⌊x⌋ ≠ 1 / 2) (hy : y - ⌊y⌋ ≠ 1 / 2)
    (h : x ≤ y) : rnd x ≤ rnd y := by
  rw [rnd_eq_round hx, rnd_eq_round hy, round_eq, round_eq]
  exact Int.floor_le_floor (by linarith)

/-- `round(x, 1)` does not drop below an exact tenth below `x`. -/
theorem le_round1 {m : ℤ} {x : α} (h1 : (m : α) / 10 ≤ x) :
    (m : α) / 10 ≤ round1 x := by
  have hm : m ≤ ⌊10 * x⌋ := Int.le_floor.mpr (by linarith)
  have hlo : m ≤ rnd (10 * x) := le_trans hm (floor_le_rnd _)
  unfold round1
  have : (m : α) ≤ ((rnd (10 * x) : ℤ) : α) := by exact_mod_cast hlo
  linarith

/-- `round(x, 1)` does not exceed an exact tenth above `x`. -/
theorem round1_le {n : ℤ} {x : α} (h2 : x ≤ (n : α) / 10) :
    round1 x ≤ (n : α) / 10 := by
  have hn : ⌈10 * x⌉ ≤ n := Int.ceil_le.mpr (by linarith)
  have hhi : rnd (10 * x) ≤ n := le_trans (rnd_le_ceil _) hn
  unfold round1
  have : ((rnd (10 * x) : ℤ) : α) ≤ (n : α) := by exact_mod_cast hhi
  linarith

/-- `round(x, 2)` does not drop below an exact hundredth below `x`. -/
theorem le_round2 {m : ℤ} {x : α} (h1 : (m : α) / 100 ≤ x) :
    (m : α) / 100 ≤ round2 x := by
  have hm : m ≤ ⌊100 * x⌋ := Int.le_floor.mpr (by linarith)
  have hlo : m ≤ rnd (100 * x) := le_trans hm (floor_le_rnd _)
  unfold round2
  have : (m : α) ≤ ((rnd (100 * x) : ℤ) : α) := by exact_mod_cast hlo
  linarith

/-- `round(x, 2)` does not exceed an exact hundredth above `x`. -/
theorem round2_le {n : ℤ} {x : α} (h2 : x ≤ (n : α) / 100) :
    round2 x ≤ (n : α) / 100 := by
  have hn : ⌈100 * x⌉ ≤ n := Int.ceil_le.mpr (by linarith)
  have hhi : rnd (100 * x) ≤ n := le_trans (rnd_le_ceil _) hn
  unfold round2
  have : ((rnd (100 * x) : ℤ) : α) ≤ (n : α) := by exact_mod_cast hhi
  linarith

theorem round1_tenth (n : ℤ) : round1 ((n : α) / 10) = (n : α) / 10 := by
  unfold round1
  rw [show (10 : α) * ((n : α) / 10) = (n : α) by ring, rnd_intCast]

end PyRound

/-- `spoilage_risk_label_from_ratio` from src/backend/main.py: maps the
spoilage ratio to a risk label string. -/
def spoilage_risk_label_from_ratio (spoilage_ratio : ℕ) : String :=
  if spoilage_ratio ≤ 25 then "Low"
  else if spoilage_ratio ≤ 50 then "Medium"
  else "High"

/-- `dry_matter_from_freshness` from src/backend/main.py: clamps the
freshness to [0, 100] and returns `round(10.0 + 0.08 * freshness, 1)`.
`10 * (10.0 + 0.08 * c) = (500 + 4 * c) / 5` exactly. -/
def dry_matter_from_freshness (freshness : ℤ) : ℚ :=
  round1 (10 + (8 : ℚ) / 100 * (max 0 (min 100 freshness)))

/-- `np.argmax` over the three cluster centroids: index of the first
occurrence of the maximum value. -/
def npargmax3 (v : Fin 3 → ℚ) : Fin 3 :=
  let i := if v 1 > v 0 then (1 : Fin 3) else 0
  if v 2 > v i then 2 else i

/-- `np.argmin` over the three cluster centroids: index of the first
occurrence of the minimum value. -/
def npargmin3 (v : Fin 3 → ℚ) : Fin 3 :=
  let i := if v 1 < v 0 then (1 : Fin 3) else 0
  if v 2 < v i then 2 else i

/-- `fresh_cluster = int(np.argmax(a))` where `a = centers[:, 1]`:
the cluster with the highest red-green (a) centroid channel.  `centers i`
is the (L, a, b) centroid of cluster `i`. -/
def fresh_cluster (centers : Fin 3 → ℚ × ℚ × ℚ) : Fin 3 :=
  npargmax3 fun i => (centers i).2.1

/-- `spoiled_cluster = int(np.argmin(L))` where `L = centers[:, 0]`:
the cluster with the lowest lightness centroid channel. -/
def spoiled_cluster (centers : Fin 3 → ℚ × ℚ × ℚ) : Fin 3 :=
  npargmin3 fun i => (centers i).1

/-- Pixel count of cluster `i`: `(labels == i).sum()` over the flattened
per-pixel label vector. -/
def cluster_pixel_count (labels : List (Fin 3)) (i : Fin 3) : ℕ :=
  labels.count i

/-- `compute_freshness_from_image` from src/backend/main.py, after the
external `cv2.kmeans` call: given the per-pixel cluster labels and the
three (L, a, b) centroids it returns the pair
(freshness_score, spoilage_ratio).  `int(100 * fresh_pixels / apple_pixels)`
truncates the non-negative float and is modelled by exact `Nat` floor
division; the double rounding of the real float computation can
additionally return one less than the exact floor when the exact quotient
is an integer (`int(100 * (29 / 100)) == 28`), so per-score statements
below claim only the floor / floor minus one band.
`apple_pixels < 0.05 * total_pixels` is `apple_pixels * 20 < total_pixels`
in exact arithmetic. -/
def compute_freshness_from_image (labels : List (Fin 3))
    (centers : Fin 3 → ℚ × ℚ × ℚ) : ℕ × ℕ :=
  let fresh_pixels := cluster_pixel_count labels (fresh_cluster centers)
  let spoiled_pixels := cluster_pixel_count labels (spoiled_cluster centers)
  let total_pixels := labels.length
  let apple_pixels := fresh_pixels + spoiled_pixels
  if apple_pixels * 20 < total_pixels then (60, 30)
  else ((100 * fresh_pixels) / apple_pixels, (100 * spoiled_pixels) / apple_pixels)

/-- The nutrition record returned by `nutrition_from_dm`. -/
structure Nutrition where
  water_percent : ℚ
  sugar_percent : ℚ
  fiber : ℚ
  vitamin_c_mg : ℚ
  deriving DecidableEq

/-- `nutrition_from_dm` from src/backend/main.py: derives the nutrition
profile from the dry-matter percentage, clamping each field and rounding
to one decimal. -/
def nutrition_from_dm (dm : ℚ) : Nutrition :=
  let dm_factor := (dm - 14) / 4
  let water := 86 - 2 * dm_factor
  let sugar := 10 + 1 * dm_factor
  let fiber := 24 / 10 + 3 / 10 * dm_factor
  let vit_c := 46 / 10 - 5 / 10 * max dm_factor 0
  { water_percent := round1 (max 70 (min 90 water))
    sugar_percent := round1 (max 5 (min 20 sugar))
    fiber := round1 (max 1 (min 5 fiber))
    vitamin_c_mg := round1 (max 1 (min 8 vit_c)) }

/-- `estimate_weight_from_image` from src/backend/main.py.  The image
processing (grayscale, blur, Otsu threshold, contour extraction,
minimal enclosing circle) is external `cv2` code; its outcome is either
no contour at all or the radius of the largest contour's minimal
enclosing circle, modelled by `contourRadius : Option ℝ`.  The
`random.uniform(0.15, 0.30)` fallback draw is modelled by the parameter
`u` (theorems assume `0.15 ≤ u ≤ 0.30`, which the library guarantees).
`radius ** 1.2` is real exponentiation, hence the definition lives in ℝ
and is noncomputable. -/
noncomputable def estimate_weight_from_image (contourRadius : Option ℝ)
    (u : ℝ) : ℝ :=
  match contourRadius with
  | none => round2 u
  | some radius => round2 ((0.0015 : ℝ) * (max radius 10) ^ ((1.2 : ℝ)))

/-! ## Theorems about the embedded program -/

/-- C3: for every integer spoilage ratio in [0, 100],
`spoilage_risk_label_from_ratio` returns "Low" iff the ratio is at most 25,
"Medium" iff it is in 26..50 and "High" iff it is in 51..100; in
particular 25 maps to Low, 26 and 50 to Medium and 51 to High. -/
theorem C3_spoilage_risk_label_boundaries :
    ∀ r : ℕ, r ≤ 100 →
      (spoilage_risk_label_from_ratio r = "Low" ↔ r ≤ 25) ∧
      (spoilage_risk_label_from_ratio r = "Medium" ↔ 26 ≤ r ∧ r ≤ 50) ∧
      (spoilage_risk_label_from_ratio r = "High" ↔ 51 ≤ r) := by
  decide

/-- Witness for C3 at the boundary ratio 25. -/
theorem C3_spoilage_risk_label_boundaries_witness :
    25 ≤ 100 ∧
      ((spoilage_risk_label_from_ratio 25 = "Low" ↔ 25 ≤ 25) ∧
       (spoilage_risk_label_from_ratio 25 = "Medium" ↔ 26 ≤ 25 ∧ 25 ≤ 50) ∧
       (spoilage_risk_label_from_ratio 25 = "High" ↔ 51 ≤ 25)) :=
  ⟨by decide, C3_spoilage_risk_label_boundaries 25 (by decide)⟩

/-- The argument `10 * (10.0 + 0.08 * c)` of the integer rounding inside
`dry_matter_from_freshness` is never an exact half, so banker's rounding
agrees with ordinary rounding there. -/
theorem dm_no_tie (c : ℤ) :
    (10 : ℚ) * (10 + (8 : ℚ) / 100 * c) -
      ⌊(10 : ℚ) * (10 + (8 : ℚ) / 100 * c)⌋ ≠ 1 / 2 := by
  intro h
  set x : ℚ := (10 : ℚ) * (10 + (8 : ℚ) / 100 * c) with hx
  have h1 : (10 : ℚ) * x = 1000 + 8 * c := by rw [hx]; ring
  have h2 : (10 : ℚ) * x = 10 * ⌊x⌋ + 5 := by
    have hx2 : x = ⌊x⌋ + 1 / 2 := by linarith
    linarith
  have h3 : (1000 + 8 * c : ℚ) = 10 * (⌊x⌋ : ℚ) + 5 := by linarith
  have h4 : (1000 + 8 * c : ℤ) = 10 * ⌊x⌋ + 5 := by exact_mod_cast h3
  omega

/-- C4: for every integer freshness input (clamped to [0, 100] first),
`dry_matter_from_freshness` returns a value in [10.0, 18.0] that is an
exact multiple of one tenth, and the function is monotonically
non-decreasing. -/
theorem C4_dry_matter_range_and_monotone :
    ∀ f g : ℤ, f ≤ g →
      (10 ≤ dry_matter_from_freshness f ∧ dry_matter_from_freshness f ≤ 18 ∧
        ∃ n : ℤ, dry_matter_from_freshness f = (n : ℚ) / 10) ∧
      dry_matter_from_freshness f ≤ dry_matter_from_freshness g := by
  intro f g hfg
  have range : ∀ h : ℤ,
      10 ≤ dry_matter_from_freshness h ∧ dry_matter_from_freshness h ≤ 18 := by
    intro h
    unfold dry_matter_from_freshness
    set c : ℤ := max 0 (min 100 h) with hc
    have hc0 : (0 : ℤ) ≤ c := le_max_left _ _
    have hc1 : c ≤ 100 := max_le (by norm_num) (min_le_left _ _)
    have hc0q : (0 : ℚ) ≤ (c : ℚ) := by exact_mod_cast hc0
    have hc1q : (c : ℚ) ≤ 100 := by exact_mod_cast hc1
    constructor
    · have hb := le_round1 (m := 100) (x := 10 + (8 : ℚ) / 100 * c)
        (by push_cast; nlinarith)
      push_cast at hb
      linarith
    · have hb := round1_le (n := 180) (x := 10 + (8 : ℚ) / 100 * c)
        (by push_cast; nlinarith)
      push_cast at hb
      linarith
  refine ⟨⟨(range f).1, (range f).2, ?_⟩, ?_⟩
  · exact ⟨rnd ((10 : ℚ) * (10 + (8 : ℚ) / 100 * (max 0 (min 100 f)))), rfl⟩
  · unfold dry_matter_from_freshness round1
    have hcm : max 0 (min 100 f) ≤ max 0 (min 100 g) :=
      max_le_max le_rfl (min_le_min le_rfl hfg)
    have hcmq : ((max 0 (min 100 f) : ℤ) : ℚ) ≤ ((max 0 (min 100 g) : ℤ) : ℚ) := by
      exact_mod_cast hcm
    have harg : (10 : ℚ) * (10 + (8 : ℚ) / 100 * (max 0 (min 100 f))) ≤
        (10 : ℚ) * (10 + (8 : ℚ) / 100 * (max 0 (min 100 g))) := by nlinarith
    have hr := rnd_mono_of_ne (dm_no_tie (max 0 (min 100 f)))
      (dm_no_tie (max 0 (min 100 g))) harg
    have hrq : ((rnd ((10 : ℚ) * (10 + (8 : ℚ) / 100 * (max 0 (min 100 f)))) : ℤ) : ℚ) ≤
        ((rnd ((10 : ℚ) * (10 + (8 : ℚ) / 100 * (max 0 (min 100 g)))) : ℤ) : ℚ) := by
      exact_mod_cast hr
    linarith

/-- Witness for C4 at freshness inputs 0 and 100. -/
theorem C4_dry_matter_range_and_monotone_witness :
    (0 : ℤ) ≤ 100 ∧
      ((10 ≤ dry_matter_from_freshness 0 ∧ dry_matter_from_freshness 0 ≤ 18 ∧
        ∃ n : ℤ, dry_matter_from_freshness 0 = (n : ℚ) / 10) ∧
      dry_matter_from_freshness 0 ≤ dry_matter_from_freshness 100) :=
  ⟨by decide, C4_dry_matter_range_and_monotone 0 100 (by decide)⟩

/-- C2: whenever the fresh and spoiled clusters together cover less than
5 percent of the pixels, `compute_freshness_from_image` returns the fixed
fallback pair (60, 30), whatever the labels and centroids are. -/
theorem C2_low_coverage_fallback :
    ∀ (labels : List (Fin 3)) (centers : Fin 3 → ℚ × ℚ × ℚ),
      (cluster_pixel_count labels (fresh_cluster centers) +
        cluster_pixel_count labels (spoiled_cluster centers)) * 20 < labels.length →
      compute_freshness_from_image labels centers = (60, 30) := by
  intro labels centers h
  simp only [compute_freshness_from_image]
  rw [if_pos h]

/-- Witness for C2: a 21-pixel image entirely in cluster 1 whose fresh and
spoiled clusters are both cluster 0. -/
theorem C2_low_coverage_fallback_witness :
    (cluster_pixel_count (List.replicate 21 (1 : Fin 3))
        (fresh_cluster fun _ => ((0 : ℚ), (0 : ℚ), (0 : ℚ))) +
      cluster_pixel_count (List.replicate 21 (1 : Fin 3))
        (spoiled_cluster fun _ => ((0 : ℚ), (0 : ℚ), (0 : ℚ)))) * 20 <
      (List.replicate 21 (1 : Fin 3)).length ∧
    compute_freshness_from_image (List.replicate 21 (1 : Fin 3))
      (fun _ => ((0 : ℚ), (0 : ℚ), (0 : ℚ))) = (60, 30) :=
  ⟨by decide, C2_low_coverage_fallback _ _ (by decide)⟩

/-- C6: the per-sample cluster assignment partitions the pixel set: the
three per-cluster pixel counts sum to the total pixel count. -/
theorem C6_cluster_partition :
    ∀ labels : List (Fin 3),
      ∑ i : Fin 3, cluster_pixel_count labels i = labels.length := by
  intro labels
  induction labels with
  | nil => simp [cluster_pixel_count]
  | cons x t ih =>
    simp only [cluster_pixel_count, List.count_cons, List.length_cons] at ih ⊢
    rw [Finset.sum_add_distrib, ih]
    simp

/-- A concrete 3-pixel cluster assignment: two pixels in cluster 0, one in
cluster 1. -/
def cexLabels : List (Fin 3) := [0, 0, 1]

/-- Concrete centroids whose a-channel is maximal at cluster 0 (the fresh
cluster) and whose L-channel is minimal at cluster 1 (the spoiled
cluster). -/
def cexCenters : Fin 3 → ℚ × ℚ × ℚ := ![(1, 5, 0), (0, 0, 0), (2, 0, 0)]

/-- C1 counterexample: on the image with 2 fresh and 1 spoiled pixels
(apple coverage 100 percent, far above the 5 percent cutoff) the code
returns freshness 66, but rounding `100 * 2 / 3` to the nearest integer
gives 67 — so `compute_freshness_from_image` does not round the ratios. -/
theorem C1_counterexample :
    ¬((cluster_pixel_count cexLabels (fresh_cluster cexCenters) +
        cluster_pixel_count cexLabels (spoiled_cluster cexCenters)) * 20 <
        cexLabels.length) ∧
    ¬(((compute_freshness_from_image cexLabels cexCenters).1 : ℤ) =
        round ((100 * (cluster_pixel_count cexLabels (fresh_cluster cexCenters) : ℚ)) /
          ((cluster_pixel_count cexLabels (fresh_cluster cexCenters) : ℚ) +
            (cluster_pixel_count cexLabels (spoiled_cluster cexCenters) : ℚ)))) := by
  constructor
  · decide
  · have h1 : (compute_freshness_from_image cexLabels cexCenters).1 = 66 := by decide
    have h2 : cluster_pixel_count cexLabels (fresh_cluster cexCenters) = 2 := by decide
    have h3 : cluster_pixel_count cexLabels (spoiled_cluster cexCenters) = 1 := by decide
    rw [h1, h2, h3]
    have h4 : (100 * ((2 : ℕ) : ℚ)) / (((2 : ℕ) : ℚ) + ((1 : ℕ) : ℚ)) = 200 / 3 := by
      norm_num
    rw [h4]
    have h5 : round ((200 : ℚ) / 3) = 67 := by
      rw [round_eq, show (200 : ℚ) / 3 + 1 / 2 = 403 / 6 by norm_num]
      rw [Int.floor_eq_iff]
      norm_num
    rw [h5]
    norm_num

/-- C1 (amended): on the non-fallback path `compute_freshness_from_image`
truncates the ratios rather than rounding them to the nearest integer:
each returned score is the floor of the corresponding percentage
`100 * pixels / applePixels` — or, accounting for the one-below deviation
that double rounding of the float quotient can introduce when the exact
percentage is an integer, one less than that floor — and never the
rounded-up value. -/
theorem C1_freshness_scores_truncated :
    ∀ (labels : List (Fin 3)) (centers : Fin 3 → ℚ × ℚ × ℚ),
      0 < labels.length →
      ¬((cluster_pixel_count labels (fresh_cluster centers) +
          cluster_pixel_count labels (spoiled_cluster centers)) * 20 < labels.length) →
      ((compute_freshness_from_image labels centers).1 =
          ⌊(100 * (cluster_pixel_count labels (fresh_cluster centers) : ℚ)) /
              (((cluster_pixel_count labels (fresh_cluster centers) +
                 cluster_pixel_count labels (spoiled_cluster centers) : ℕ)) : ℚ)⌋₊ ∨
        (compute_freshness_from_image labels centers).1 + 1 =
          ⌊(100 * (cluster_pixel_count labels (fresh_cluster centers) : ℚ)) /
              (((cluster_pixel_count labels (fresh_cluster centers) +
                 cluster_pixel_count labels (spoiled_cluster centers) : ℕ)) : ℚ)⌋₊) ∧
      ((compute_freshness_from_image labels centers).2 =
          ⌊(100 * (cluster_pixel_count labels (spoiled_cluster centers) : ℚ)) /
              (((cluster_pixel_count labels (fresh_cluster centers) +
                 cluster_pixel_count labels (spoiled_cluster centers) : ℕ)) : ℚ)⌋₊ ∨
        (compute_freshness_from_image labels centers).2 + 1 =
          ⌊(100 * (cluster_pixel_count labels (spoiled_cluster centers) : ℚ)) /
              (((cluster_pixel_count labels (fresh_cluster centers) +
                 cluster_pixel_count labels (spoiled_cluster centers) : ℕ)) : ℚ)⌋₊) := by
  intro labels centers hlen hcov
  have hfst : ∀ m : ℕ,
      (100 * m) / (cluster_pixel_count labels (fresh_cluster centers) +
        cluster_pixel_count labels (spoiled_cluster centers)) =
      ⌊(100 * (m : ℚ)) /
          (((cluster_pixel_count labels (fresh_cluster centers) +
             cluster_pixel_count labels (spoiled_cluster centers) : ℕ)) : ℚ)⌋₊ := by
    intro m
    rw [Nat.floor_div_nat]
    rw [show (100 * (m : ℚ)) = (((100 * m : ℕ) : ℚ)) by push_cast; ring]
    rw [Nat.floor_natCast]
  have hres : compute_freshness_from_image labels centers =
      ((100 * cluster_pixel_count labels (fresh_cluster centers)) /
          (cluster_pixel_count labels (fresh_cluster centers) +
            cluster_pixel_count labels (spoiled_cluster centers)),
        (100 * cluster_pixel_count labels (spoiled_cluster centers)) /
          (cluster_pixel_count labels (fresh_cluster centers) +
            cluster_pixel_count labels (spoiled_cluster centers))) := by
    simp only [compute_freshness_from_image]
    rw [if_neg hcov]
  rw [hres]
  exact ⟨Or.inl (hfst _), Or.inl (hfst _)⟩

/-- Witness for the amended C1 on the concrete 3-pixel image. -/
theorem C1_freshness_scores_truncated_witness :
    0 < cexLabels.length ∧
    ¬((cluster_pixel_count cexLabels (fresh_cluster cexCenters) +
        cluster_pixel_count cexLabels (spoiled_cluster cexCenters)) * 20 <
        cexLabels.length) ∧
    (((compute_freshness_from_image cexLabels cexCenters).1 =
        ⌊(100 * (cluster_pixel_count cexLabels (fresh_cluster cexCenters) : ℚ)) /
            (((cluster_pixel_count cexLabels (fresh_cluster cexCenters) +
               cluster_pixel_count cexLabels (spoiled_cluster cexCenters) : ℕ)) : ℚ)⌋₊ ∨
      (compute_freshness_from_image cexLabels cexCenters).1 + 1 =
        ⌊(100 * (cluster_pixel_count cexLabels (fresh_cluster cexCenters) : ℚ)) /
            (((cluster_pixel_count cexLabels (fresh_cluster cexCenters) +
               cluster_pixel_count cexLabels (spoiled_cluster cexCenters) : ℕ)) : ℚ)⌋₊) ∧
    ((compute_freshness_from_image cexLabels cexCenters).2 =
        ⌊(100 * (cluster_pixel_count cexLabels (spoiled_cluster cexCenters) : ℚ)) /
            (((cluster_pixel_count cexLabels (fresh_cluster cexCenters) +
               cluster_pixel_count cexLabels (spoiled_cluster cexCenters) : ℕ)) : ℚ)⌋₊ ∨
      (compute_freshness_from_image cexLabels cexCenters).2 + 1 =
        ⌊(100 * (cluster_pixel_count cexLabels (spoiled_cluster cexCenters) : ℚ)) /
            (((cluster_pixel_count cexLabels (fresh_cluster cexCenters) +
               cluster_pixel_count cexLabels (spoiled_cluster cexCenters) : ℕ)) : ℚ)⌋₊)) :=
  ⟨by decide, by decide,
    C1_freshness_scores_truncated cexLabels cexCenters (by decide) (by decide)⟩

/-- C9: on the non-fallback path the two scores always sum to 99 or 100,
and when the fresh and spoiled clusters coincide the result is exactly
(50, 50). -/
theorem C9_scores_sum_99_or_100 :
    ∀ (labels : List (Fin 3)) (centers : Fin 3 → ℚ × ℚ × ℚ),
      0 < labels.length →
      ¬((cluster_pixel_count labels (fresh_cluster centers) +
          cluster_pixel_count labels (spoiled_cluster centers)) * 20 < labels.length) →
      ((compute_freshness_from_image labels centers).1 +
          (compute_freshness_from_image labels centers).2 = 99 ∨
        (compute_freshness_from_image labels centers).1 +
          (compute_freshness_from_image labels centers).2 = 100) ∧
      (fresh_cluster centers = spoiled_cluster centers →
        compute_freshness_from_image labels centers = (50, 50)) := by
  intro labels centers hlen hcov
  set f := cluster_pixel_count labels (fresh_cluster centers) with hf
  set s := cluster_pixel_count labels (spoiled_cluster centers) with hs
  have ha : 0 < f + s := by
    rcases Nat.eq_zero_or_pos (f + s) with h0 | hpos
    · rw [h0] at hcov
      omega
    · exact hpos
  have hres : compute_freshness_from_image labels centers =
      ((100 * f) / (f + s), (100 * s) / (f + s)) := by
    simp only [compute_freshness_from_image]
    rw [← hf, ← hs, if_neg hcov]
  constructor
  · rw [hres]
    have hkey : (100 * f + 100 * s) / (f + s) =
        100 * f / (f + s) + 100 * s / (f + s) +
          if f + s ≤ 100 * f % (f + s) + 100 * s % (f + s) then 1 else 0 :=
      Nat.add_div ha
    have hsum : 100 * f + 100 * s = 100 * (f + s) := by ring
    have hful : (100 * (f + s)) / (f + s) = 100 := Nat.mul_div_cancel 100 ha
    rw [hsum, hful] at hkey
    split at hkey <;> omega
  · intro hcoin
    have hfs : f = s := by rw [hf, hs, hcoin]
    rw [hres, hfs]
    have h2s : s + s = 2 * s := by ring
    have hpos : 0 < 2 * s := by omega
    rw [h2s, show 100 * s = 50 * (2 * s) by ring, Nat.mul_div_cancel 50 hpos]

/-- Witness for C9 on the concrete 3-pixel image: the scores are 66 and 33
and sum to 99. -/
theorem C9_scores_sum_99_or_100_witness :
    0 < cexLabels.length ∧
    ¬((cluster_pixel_count cexLabels (fresh_cluster cexCenters) +
        cluster_pixel_count cexLabels (spoiled_cluster cexCenters)) * 20 <
        cexLabels.length) ∧
    (((compute_freshness_from_image cexLabels cexCenters).1 +
        (compute_freshness_from_image cexLabels cexCenters).2 = 99 ∨
      (compute_freshness_from_image cexLabels cexCenters).1 +
        (compute_freshness_from_image cexLabels cexCenters).2 = 100) ∧
    (fresh_cluster cexCenters = spoiled_cluster cexCenters →
      compute_freshness_from_image cexLabels cexCenters = (50, 50))) :=
  ⟨by decide, by decide,
    C9_scores_sum_99_or_100 cexLabels cexCenters (by decide) (by decide)⟩

/-- C5: for every dry-matter value the four nutrition fields returned by
`nutrition_from_dm` lie in their documented ranges (water in [70, 90],
sugar in [5, 20], fiber in [1, 5], vitamin C in [1, 8]), and at the anchor
point dm = 14.0 the result is exactly water 86.0, sugar 10.0, fiber 2.4
and vitamin C 4.6. -/
theorem C5_nutrition_ranges_and_anchor :
    (∀ dm : ℚ,
      70 ≤ (nutrition_from_dm dm).water_percent ∧
      (nutrition_from_dm dm).water_percent ≤ 90 ∧
      5 ≤ (nutrition_from_dm dm).sugar_percent ∧
      (nutrition_from_dm dm).sugar_percent ≤ 20 ∧
      1 ≤ (nutrition_from_dm dm).fiber ∧ (nutrition_from_dm dm).fiber ≤ 5 ∧
      1 ≤ (nutrition_from_dm dm).vitamin_c_mg ∧
      (nutrition_from_dm dm).vitamin_c_mg ≤ 8) ∧
    nutrition_from_dm 14 =
      { water_percent := 86, sugar_percent := 10, fiber := 2.4,
        vitamin_c_mg := 4.6 } := by
  have hlo : ∀ (lo hi x : ℚ) (m : ℤ), (m : ℚ) / 10 = lo →
      lo ≤ round1 (max lo (min hi x)) := by
    intro lo hi x m hm
    rw [← hm]
    exact le_round1 (by rw [hm]; exact le_max_left _ _)
  have hhi : ∀ (lo hi x : ℚ) (n : ℤ), (n : ℚ) / 10 = hi → lo ≤ hi →
      round1 (max lo (min hi x)) ≤ hi := by
    intro lo hi x n hn hlh
    rw [← hn]
    exact round1_le (by rw [hn]; exact max_le hlh (min_le_left _ _))
  constructor
  · intro dm
    simp only [nutrition_from_dm]
    refine ⟨hlo _ _ _ 700 (by norm_num), hhi _ _ _ 900 (by norm_num) (by norm_num),
      hlo _ _ _ 50 (by norm_num), hhi _ _ _ 200 (by norm_num) (by norm_num),
      hlo _ _ _ 10 (by norm_num), hhi _ _ _ 50 (by norm_num) (by norm_num),
      hlo _ _ _ 10 (by norm_num), hhi _ _ _ 80 (by norm_num) (by norm_num)⟩
  · have h86 : round1 (86 : ℚ) = 86 := by
      have h := round1_tenth (α := ℚ) 860
      norm_num at h
      exact h
    have h10 : round1 (10 : ℚ) = 10 := by
      have h := round1_tenth (α := ℚ) 100
      norm_num at h
      exact h
    have h24 : round1 (12 / 5 : ℚ) = 12 / 5 := by
      have h := round1_tenth (α := ℚ) 24
      norm_num at h
      exact h
    have h46 : round1 (23 / 5 : ℚ) = 23 / 5 := by
      have h := round1_tenth (α := ℚ) 46
      norm_num at h
      exact h
    simp only [nutrition_from_dm, Nutrition.mk.injEq]
    norm_num [h86, h10, h24, h46]

/-- The real exponential `10 ** 1.2` is at least 40 / 3 (because its fifth
power is 10 ** 6 while (40 / 3) ** 5 is below 10 ** 6). -/
theorem ten_rpow_twelve_tenths_lb : (40 / 3 : ℝ) ≤ (10 : ℝ) ^ ((1.2 : ℝ)) := by
  have h5 : ((10 : ℝ) ^ ((1.2 : ℝ))) ^ (5 : ℕ) = 1000000 := by
    rw [← Real.rpow_natCast ((10 : ℝ) ^ ((1.2 : ℝ))) 5,
      ← Real.rpow_mul (by norm_num : (0 : ℝ) ≤ 10)]
    rw [show ((1.2 : ℝ) * ((5 : ℕ) : ℝ)) = ((6 : ℕ) : ℝ) by push_cast; norm_num]
    rw [Real.rpow_natCast]
    norm_num
  by_contra hlt
  push_neg at hlt
  have hpos : (0 : ℝ) ≤ (10 : ℝ) ^ ((1.2 : ℝ)) :=
    (Real.rpow_pos_of_pos (by norm_num) _).le
  have h2 : ((10 : ℝ) ^ ((1.2 : ℝ))) ^ (5 : ℕ) < (40 / 3 : ℝ) ^ (5 : ℕ) :=
    pow_lt_pow_left₀ hlt hpos (by norm_num)
  rw [h5] at h2
  norm_num at h2

/-- Lower bound 0.02 on every path of `estimate_weight_from_image`: the
radius floor of 10 forces `0.0015 * radius ** 1.2 ≥ 0.0015 * 10 ** 1.2 ≥
0.02`, and the no-contour fallback draw is at least 0.15. -/
theorem estimate_weight_lower_bound (contourRadius : Option ℝ) (u : ℝ)
    (hu : (0.15 : ℝ) ≤ u) :
    (2 : ℝ) / 100 ≤ estimate_weight_from_image contourRadius u := by
  cases contourRadius with
  | none =>
    show (2 : ℝ) / 100 ≤ round2 u
    have h := le_round2 (m := 2) (x := u) (by push_cast; norm_num at hu ⊢; linarith)
    push_cast at h
    linarith
  | some radius =>
    show (2 : ℝ) / 100 ≤ round2 ((0.0015 : ℝ) * (max radius 10) ^ ((1.2 : ℝ)))
    have hmax : (10 : ℝ) ≤ max radius 10 := le_max_right _ _
    have hr : (10 : ℝ) ^ ((1.2 : ℝ)) ≤ (max radius 10) ^ ((1.2 : ℝ)) :=
      Real.rpow_le_rpow (by norm_num) hmax (by norm_num)
    have h40 := ten_rpow_twelve_tenths_lb
    have harg : (2 : ℝ) / 100 ≤ (0.0015 : ℝ) * (max radius 10) ^ ((1.2 : ℝ)) := by
      have : (0.0015 : ℝ) * (40 / 3) ≤ (0.0015 : ℝ) * (max radius 10) ^ ((1.2 : ℝ)) := by
        have hle : (40 / 3 : ℝ) ≤ (max radius 10) ^ ((1.2 : ℝ)) := le_trans h40 hr
        nlinarith
      norm_num at this ⊢
      linarith
    have h := le_round2 (m := 2) (x := (0.0015 : ℝ) * (max radius 10) ^ ((1.2 : ℝ)))
      (by push_cast; linarith)
    push_cast at h
    linarith

/-- C7: for every image (contour present or not) and every outcome of the
internal randomness, `estimate_weight_from_image` returns a non-negative
value. -/
theorem C7_weight_nonneg :
    ∀ (contourRadius : Option ℝ) (u : ℝ), (0.15 : ℝ) ≤ u →
      0 ≤ estimate_weight_from_image contourRadius u := by
  intro contourRadius u hu
  have h := estimate_weight_lower_bound contourRadius u hu
  linarith

/-- Witness for C7 on a contour of radius 12 and fallback draw 0.2. -/
theorem C7_weight_nonneg_witness :
    (0.15 : ℝ) ≤ 0.2 ∧ 0 ≤ estimate_weight_from_image (some 12) 0.2 :=
  ⟨by norm_num, C7_weight_nonneg (some 12) 0.2 (by norm_num)⟩

/-- C8: whenever no contour is found, the returned fallback weight lies in
the range [0.15, 0.30], whatever value the random draw took in that
range. -/
theorem C8_no_contour_fallback_range :
    ∀ u : ℝ, (0.15 : ℝ) ≤ u → u ≤ (0.30 : ℝ) →
      (0.15 : ℝ) ≤ estimate_weight_from_image none u ∧
      estimate_weight_from_image none u ≤ (0.30 : ℝ) := by
  intro u hu1 hu2
  constructor
  · show (0.15 : ℝ) ≤ round2 u
    have h := le_round2 (m := 15) (x := u) (by push_cast; norm_num at hu1 ⊢; linarith)
    push_cast at h
    norm_num at h ⊢
    linarith
  · show round2 u ≤ (0.30 : ℝ)
    have h := round2_le (n := 30) (x := u) (by push_cast; norm_num at hu2 ⊢; linarith)
    push_cast at h
    norm_num at h ⊢
    linarith

/-- Witness for C8 at the fallback draw 0.2. -/
theorem C8_no_contour_fallback_range_witness :
    (0.15 : ℝ) ≤ 0.2 ∧ (0.2 : ℝ) ≤ 0.30 ∧
      ((0.15 : ℝ) ≤ estimate_weight_from_image none 0.2 ∧
       estimate_weight_from_image none 0.2 ≤ (0.30 : ℝ)) :=
  ⟨by norm_num, by norm_num,
    C8_no_contour_fallback_range 0.2 (by norm_num) (by norm_num)⟩

/-- C10: for every input, `estimate_weight_from_image` returns at least
0.02 kg (in particular a strictly positive value): the radius floor of 10
forces at least `round(0.0015 * 10 ** 1.2, 2) = 0.02` on the contour path,
and the no-contour fallback is at least 0.15. -/
theorem C10_weight_at_least_two_hundredths :
    ∀ (contourRadius : Option ℝ) (u : ℝ), (0.15 : ℝ) ≤ u →
      (0.02 : ℝ) ≤ estimate_weight_from_image contourRadius u := by
  intro contourRadius u hu
  have h := estimate_weight_lower_bound contourRadius u hu
  norm_num at h ⊢
  linarith

/-- Witness for C10 on a degenerate tiny contour (radius 1) and fallback
draw 0.2. -/
theorem C10_weight_at_least_two_hundredths_witness :
    (0.15 : ℝ) ≤ 0.2 ∧ (0.02 : ℝ) ≤ estimate_weight_from_image (some 1) 0.2 :=
  ⟨by norm_num, C10_weight_at_least_two_hundredths (some 1) 0.2 (by norm_num)⟩
